import Mathlib

/-!
Verification of the fantasy-football draft optimizer (`examples/gurobi/fantop/fantopmodel.py`)
and of the columnar (pandas) conversion layer of the ticdat schema library.

The `solve` function of `fantopmodel.py` is embedded shallowly: the input data
object becomes the structure `FanDat`, the external mixed-integer solver becomes
an oracle `SolverOutcome` (a termination status plus a valuation of the binary
decision variables), Python `assert` statements become `Except.error` branches,
`print` output becomes a list of messages, and the post-solve extraction loop
becomes a pure function.  Rational numbers stand in for the floating-point
values the solver reports; draft positions are natural numbers because the
schema declares them integral.
-/

deriving instance DecidableEq for Except

/-- Primary keys of an association-list table. -/
def keys {α β : Type} (l : List (α × β)) : List α :=
  l.map Prod.fst

/-- Association-list lookup, mirroring Python dict indexing. -/
def alookup {α β : Type} [DecidableEq α] : List (α × β) → α → Option β
  | [], _ => none
  | (k, v) :: rest, x => if x = k then some v else alookup rest x

/-- Pair each element of a list with its position, counting from `n`. -/
def withIdx {α : Type} : List α → Nat → List (Nat × α)
  | [], _ => []
  | a :: l, n => (n, a) :: withIdx l (n + 1)

namespace Fantop

/-- A row of the `players` table: the data fields attached to a player name. -/
structure PlayerRow where
  position : String
  avgDraftPosition : Rat
  expectedPoints : Rat
deriving DecidableEq

/-- A row of the `roster_requirements` table. -/
structure RosterRow where
  minNumStarters : Nat
  maxNumStarters : Nat
  minNumReserve : Nat
  maxNumReserve : Nat
  flexStatus : String
deriving DecidableEq

/-- The input data object of the fantop model: one field per table of the input
schema, each table an association list from primary key to data fields.
`my_draft_positions` has no data fields, so it is a plain list of keys. -/
structure FanDat where
  parameters : List (String × Rat)
  players : List (String × PlayerRow)
  roster_requirements : List (String × RosterRow)
  drafted : List (String × Nat)
  my_draft_positions : List Nat
deriving DecidableEq

/-- Modelled from the spec: `good_tic_dat_object` (the ticdat validation entry
point is not part of the sources) — a data object conforms to the schema when
every row's primary key is unique within its table. -/
def goodTicDat (dat : FanDat) : Prop :=
  (keys dat.parameters).Nodup ∧ (keys dat.players).Nodup ∧
  (keys dat.roster_requirements).Nodup ∧ (keys dat.drafted).Nodup ∧
  dat.my_draft_positions.Nodup

instance (dat : FanDat) : Decidable (goodTicDat dat) := by
  unfold goodTicDat; infer_instance

/-- Modelled from the spec: `find_foreign_key_failures` returns nothing exactly
when every declared foreign key resolves.  The declarations in the source are
drafted.Player Name → players and players.Position → roster_requirements. -/
def fkOk (dat : FanDat) : Prop :=
  (∀ d ∈ dat.drafted, d.1 ∈ keys dat.players) ∧
  (∀ pr ∈ dat.players, pr.2.position ∈ keys dat.roster_requirements)

instance (dat : FanDat) : Decidable (fkOk dat) := by
  unfold fkOk; infer_instance

/-- Modelled from the spec: `find_data_type_failures` returns nothing exactly
when every field value lies in its declared domain; the domains are the
`set_data_type` calls of the source (integrality of the integer fields is
already carried by the `Nat` encoding). -/
def dtOk (dat : FanDat) : Prop :=
  (∀ kv ∈ dat.parameters,
      kv.1 ∈ ["Starter Weight", "Reserve Weight", "Maximum Number of Flex Starters"] ∧
      0 ≤ kv.2) ∧
  (∀ pr ∈ dat.players, 0 < pr.2.avgDraftPosition) ∧
  (∀ rr ∈ dat.roster_requirements,
      1 ≤ rr.2.maxNumStarters ∧ rr.2.flexStatus ∈ ["Flex Eligible", "Flex Ineligible"]) ∧
  (∀ d ∈ dat.drafted, 1 ≤ d.2) ∧
  (∀ p ∈ dat.my_draft_positions, 1 ≤ p)

instance (dat : FanDat) : Decidable (dtOk dat) := by
  unfold dtOk; infer_instance

/-- The `assert min(draft_positions) == 1 and len(draft_positions) == max(draft_positions)`
guard of `solve`, applied to the set of `Draft Position` values of the drafted
table (skipped when `drafted` is empty, as in the source). -/
def sequentialCheck (dat : FanDat) : Bool :=
  dat.drafted.isEmpty ||
    (let s := (dat.drafted.map Prod.snd).dedup
     decide (s.min? = some 1) && decide (s.max? = some s.length))

/-- The `Average Draft Position` of a player (0 when absent, which the callers
never hit on validated data). -/
def playerADP (dat : FanDat) (p : String) : Rat :=
  ((alookup dat.players p).map PlayerRow.avgDraftPosition).getD 0

/-- The `Position` of a player. -/
def playerPosition (dat : FanDat) (p : String) : String :=
  ((alookup dat.players p).map PlayerRow.position).getD ""

/-- The undrafted players sorted by `Average Draft Position`, as in the
`sorted(...)` loop of `solve` (which iterates a Python set, so the order of
players of equal average draft position is unspecified in the source). -/
def undraftedSorted (dat : FanDat) : List String :=
  ((keys dat.players).filter fun p => decide (¬ p ∈ keys dat.drafted)).insertionSort
    fun a b => playerADP dat a ≤ playerADP dat b

/-- Assign consecutive positions starting at `n`, mirroring the
`expected_draft_position[player_name] = len(expected_draft_position) + 1` loop. -/
def assignFrom (n : Nat) : List String → List (String × Nat)
  | [] => []
  | p :: rest => (p, n) :: assignFrom (n + 1) rest

/-- The `expected_draft_position` dictionary of `solve`: the drafted players
keep their actual draft position, then the undrafted players (sorted by
average draft position) receive the consecutive positions that follow. -/
def expectedDraftPositionList (dat : FanDat) : List (String × Nat) :=
  dat.drafted ++ assignFrom (dat.drafted.length + 1) (undraftedSorted dat)

/-- The multiset of values of `expected_draft_position`. -/
def edpValues (dat : FanDat) : List Nat :=
  (expectedDraftPositionList dat).map Prod.snd

/-- `expected_draft_position[p]`. -/
def edpOf (dat : FanDat) (p : String) : Nat :=
  (alookup (expectedDraftPositionList dat) p).getD 0

/-- The two `assert` statements on `expected_draft_position`:
`max(values) == len(set(values)) == len(dat.players)` and `min(values) == 1`. -/
def edpCheck (dat : FanDat) : Bool :=
  let vals := edpValues dat
  decide (vals.max? = some vals.dedup.length) &&
  decide (vals.dedup.length = dat.players.length) &&
  decide (vals.min? = some 1)

/-- `already_drafted_by_me`: the drafted players whose draft position belongs
to `my_draft_positions`. -/
def alreadyDraftedByMe (dat : FanDat) : List String :=
  (keys dat.drafted).filter fun p =>
    decide (((alookup dat.drafted p).getD 0) ∈ dat.my_draft_positions)

/-- `can_be_drafted_by_me = set(players) - set(drafted) ∪ already_drafted_by_me`. -/
def canBeDraftedByMe (dat : FanDat) : List String :=
  ((keys dat.players).filter fun p => decide (¬ p ∈ keys dat.drafted)) ++
    alreadyDraftedByMe dat

/-- The external solver, abstracted as an oracle: whether it reported
`GRB.OPTIMAL`, and the value it assigned to each starter / reserve variable. -/
structure SolverOutcome where
  optimal : Bool
  starterVal : String → Rat
  reserveVal : String → Rat

/-- `abs(x.x - 1) < 0.0001`, the extraction tolerance of `solve`, computed on
the numerator and denominator of the exact rational so that the kernel can
evaluate it (the theorem `almostone_iff` below proves it equal to the
source's formula `|x - 1| < 1/10000`). -/
def almostone (x : Rat) : Bool :=
  decide ((x.num - (x.den : Int)).natAbs * 10000 < x.den)

/-- `picked`: candidates one of whose variables is within tolerance of 1,
sorted by expected draft position. -/
def picked (dat : FanDat) (o : SolverOutcome) : List String :=
  ((canBeDraftedByMe dat).filter fun p =>
      almostone (o.starterVal p) || almostone (o.reserveVal p)).insertionSort
    fun a b => edpOf dat a ≤ edpOf dat b

/-- `sorted(dat.my_draft_positions)`. -/
def sortedPositions (dat : FanDat) : List Nat :=
  dat.my_draft_positions.insertionSort fun a b => a ≤ b

/-- A row of the output `my_draft` table. -/
structure MyDraftRow where
  draftPosition : Nat
  position : String
  plannedOrActual : String
  starterOrReserve : String
deriving DecidableEq

/-- The output data object of `solve` (keys of `my_draft` with their rows). -/
abbrev SlnTicDat := List (String × MyDraftRow)

/-- The total draft size expression `my_draft_size` of the model: the sum of
all starter and reserve variables over the candidates. -/
def totalDraftSize (dat : FanDat) (o : SolverOutcome) : Rat :=
  ((canBeDraftedByMe dat).map fun p => o.starterVal p + o.reserveVal p).sum

/-- The two size constraints posted on `my_draft_size`:
`need_to_extend_by_at_least_one` and `cant_exceed_draft_total`. -/
def sizeConstraintsHold (dat : FanDat) (o : SolverOutcome) : Prop :=
  ((alreadyDraftedByMe dat).length + 1 : Rat) ≤ totalDraftSize dat o ∧
  totalDraftSize dat o ≤ (dat.my_draft_positions.length : Rat)

/-- The `already_drafted_%s` equality constraints: a player already drafted by
me must be taken as a starter or a reserve. -/
def alreadyDraftedConstraintsHold (dat : FanDat) (o : SolverOutcome) : Prop :=
  ∀ p ∈ alreadyDraftedByMe dat, o.starterVal p + o.reserveVal p = 1

/-- The decision variables are declared `GRB.BINARY`; a solver respecting the
variable types returns a zero-or-one value for each of them. -/
def binaryValues (dat : FanDat) (o : SolverOutcome) : Prop :=
  ∀ p ∈ canBeDraftedByMe dat,
    (o.starterVal p = 0 ∨ o.starterVal p = 1) ∧
    (o.reserveVal p = 0 ∨ o.reserveVal p = 1)

instance (dat : FanDat) (o : SolverOutcome) : Decidable (binaryValues dat o) := by
  unfold binaryValues; infer_instance

instance (dat : FanDat) (o : SolverOutcome) :
    Decidable (alreadyDraftedConstraintsHold dat o) := by
  unfold alreadyDraftedConstraintsHold; infer_instance

/-- The shallow embedding of `solve`.  Each Python `assert` is an
`Except.error` branch carrying its message; `print` output is collected in the
first component of the `ok` result, and the returned solution (or `None`) in
the second. -/
def solve (dat : FanDat) (o : SolverOutcome) :
    Except String (List String × Option SlnTicDat) :=
  if ¬ goodTicDat dat then .error "good_tic_dat_object" else
  if ¬ fkOk dat then .error "find_foreign_key_failures" else
  if ¬ dtOk dat then .error "find_data_type_failures" else
  if sequentialCheck dat = false then .error "draft positions should be sequential" else
  if edpCheck dat = false then .error "expected_draft_position consistency" else
  if o.optimal = false then .ok (["No draft at all is possible!"], none) else
  let pk := picked dat o
  if dat.my_draft_positions.length < pk.length then
    .error "len picked exceeds len my_draft_positions" else
  if ((pk.zip (sortedPositions dat)).all fun pd => decide (pd.2 ≤ edpOf dat pd.1)) = false then
    .error "draft_position must not exceed expected_draft_position" else
  .ok ((if pk.length < dat.my_draft_positions.length
          then ["Your model is over-constrained, and thus only a partial draft was possible"]
          else []),
       some ((pk.zip (sortedPositions dat)).map fun pd =>
         (pd.1, ⟨pd.2, playerPosition dat pd.1,
                 if pd.1 ∈ alreadyDraftedByMe dat then "Actual" else "Planned",
                 if almostone (o.starterVal pd.1) then "Starter" else "Reserve"⟩)))

end Fantop

namespace TicPandas

/-!
The ticdat columnar converter (`TicDatFactory.copy_to_pandas`) is exercised by
`ticdat/testing/testpandas.py` but its implementation is not among the sources,
so this section models it from the spec (section 4.3, Format Converters): a
table becomes a set of columns, one per field, indexed by the primary key —
a scalar index when the primary key is a single field, a multi-level (tuple)
index otherwise — and the primary-key columns are dropped from the data-field
view by default, retained under a flag.
-/

/-- A cell of a table: ticdat fields hold numbers or strings. -/
inductive CellVal
  | num (q : Rat)
  | str (s : String)
deriving DecidableEq

/-- A table schema: ordered primary-key fields and ordered data fields. -/
structure TableSchema where
  pkFields : List String
  dataFields : List String
deriving DecidableEq

/-- One table of a data object: rows as (primary-key tuple, data values in
declared field order). -/
abbrev TableRows := List (List CellVal × List CellVal)

/-- A pandas index entry: scalar for single-field primary keys, a tuple
(multi-level index) otherwise. -/
inductive PIndex
  | scalar (v : CellVal)
  | multi (vs : List CellVal)
deriving DecidableEq

/-- Modelled from the spec: the index under which a row's primary-key tuple is
filed — "primary keys on a single field collapse to a scalar index,
multi-field primary keys collapse to a multi-level index". -/
def mkIndex (sch : TableSchema) (pk : List CellVal) : PIndex :=
  if sch.pkFields.length = 1 then .scalar (pk.headD (.str "")) else .multi pk

/-- The columnar form of one table: its index and its named columns, each
column a list of (index entry, cell) pairs. -/
structure PanTable where
  index : List PIndex
  columns : List (String × List (PIndex × CellVal))
deriving DecidableEq

/-- Modelled from the spec: the write direction of the columnar converter
(`copy_to_pandas`) — every data field becomes a column indexed by the rows'
primary keys; the primary-key columns are dropped when `dropPkColumns` is
true (the default in the library) and retained before the data columns
otherwise. -/
def copy_to_pandas (sch : TableSchema) (rows : TableRows) (dropPkColumns : Bool) : PanTable :=
  let idx := rows.map fun r => mkIndex sch r.1
  let pkCols := (withIdx sch.pkFields 0).map fun jf =>
    (jf.2, rows.map fun r => (mkIndex sch r.1, r.1.getD jf.1 (.str "")))
  let dataCols := (withIdx sch.dataFields 0).map fun jf =>
    (jf.2, rows.map fun r => (mkIndex sch r.1, r.2.getD jf.1 (.str "")))
  ⟨idx, if dropPkColumns then dataCols else pkCols ++ dataCols⟩

/-- Recover a primary-key tuple from its index entry. -/
def unIndex (ix : PIndex) : List CellVal :=
  match ix with
  | .scalar v => [v]
  | .multi vs => vs

/-- Modelled from the spec: the read direction of the columnar converter —
rebuild each row from the index (the primary key) and the data-field columns,
restricted to the schema's declared fields. -/
def from_pandas (sch : TableSchema) (pt : PanTable) : TableRows :=
  (withIdx pt.index 0).map fun iix =>
    (unIndex iix.2,
     sch.dataFields.map fun f =>
       (((alookup pt.columns f).getD []).getD iix.1 (.multi [], .str "")).2)

/-- The column of a converted table holding a given field. -/
def colOf (pt : PanTable) (f : String) : List (PIndex × CellVal) :=
  (alookup pt.columns f).getD []

end TicPandas

namespace Fantop

/-- A permissive roster row used by the concrete examples. -/
def rrX : RosterRow := ⟨0, 1, 0, 1, "Flex Ineligible"⟩

/-- Two undrafted players and two draft positions of mine. -/
def datTwo : FanDat :=
  ⟨[], [("A", ⟨"QB", 1, 20⟩), ("B", ⟨"RB", 2, 18⟩)], [("QB", rrX), ("RB", rrX)], [], [2, 1]⟩

/-- An optimal outcome taking every candidate as a starter. -/
def oAllStart : SolverOutcome := ⟨true, fun _ => 1, fun _ => 0⟩

/-- An optimal outcome taking only player A. -/
def oOnlyA : SolverOutcome := ⟨true, fun p => if p = "A" then 1 else 0, fun _ => 0⟩

/-- A non-optimal (e.g. infeasible) outcome. -/
def oNotOpt : SolverOutcome := ⟨false, fun _ => 0, fun _ => 0⟩

/-- Player A already drafted at position 1, which is one of my positions. -/
def datAct : FanDat :=
  ⟨[], [("A", ⟨"QB", 1, 20⟩), ("B", ⟨"RB", 2, 18⟩), ("C", ⟨"RB", 3, 15⟩)],
   [("QB", rrX), ("RB", rrX)], [("A", 1)], [1, 2]⟩

/-- Starter A, reserve B. -/
def oAct : SolverOutcome :=
  ⟨true, fun p => if p = "A" then 1 else 0, fun p => if p = "B" then 1 else 0⟩

/-- Non-contiguous drafted positions: the only drafted position is 2. -/
def datNC : FanDat :=
  ⟨[], [("A", ⟨"QB", 1, 20⟩), ("B", ⟨"RB", 2, 18⟩)], [("QB", rrX), ("RB", rrX)],
   [("A", 2)], [1]⟩

/-- Two players drafted at the same position 1: the set of drafted positions is
the contiguous range {1}, yet `expected_draft_position` is not injective. -/
def dat9 : FanDat :=
  ⟨[], [("A", ⟨"X", 1, 1⟩), ("B", ⟨"X", 2, 1⟩), ("C", ⟨"X", 3, 1⟩)], [("X", rrX)],
   [("A", 1), ("B", 1)], [1]⟩

/-- One player and no draft positions of mine. -/
def datNoPos : FanDat := ⟨[], [("A", ⟨"X", 1, 1⟩)], [("X", rrX)], [], []⟩

end Fantop

namespace TicPandas

/-- A single-field-key table schema, as the `foods` table of the diet test. -/
def schFoods : TableSchema := ⟨["name"], ["cost"]⟩

/-- Two rows for the single-field-key schema. -/
def rowsFoods : TableRows :=
  [([CellVal.str "pizza"], [CellVal.num 2]), ([CellVal.str "milk"], [CellVal.num 1])]

/-- A two-field-key table schema, as the `nutritionQuantities` table. -/
def schNQ : TableSchema := ⟨["food", "category"], ["qty"]⟩

/-- Two rows for the two-field-key schema. -/
def rowsNQ : TableRows :=
  [([CellVal.str "pizza", CellVal.str "fat"], [CellVal.num 5]),
   ([CellVal.str "milk", CellVal.str "fat"], [CellVal.num 1])]

end TicPandas

/-! ## Theorems -/

namespace Fantop

/-- The result of `solve` once all input assertions have passed and the solver
did not report optimal. -/
lemma solve_nonoptimal (dat : FanDat) (o : SolverOutcome)
    (hg : goodTicDat dat) (hfk : fkOk dat) (hdt : dtOk dat)
    (hs : sequentialCheck dat = true) (he : edpCheck dat = true)
    (hopt : o.optimal = false) :
    solve dat o = .ok (["No draft at all is possible!"], none) := by
  unfold solve
  simp [hg, hfk, hdt, hs, he, hopt]

end Fantop

/-- C5: if the input passes all of `solve`'s assertions and the solver
terminates with a non-optimal status, `solve` raises nothing: it produces the
user-facing message "No draft at all is possible!" and returns no solution
object. -/
theorem C5_nonoptimal_message_and_none (dat : Fantop.FanDat) (o : Fantop.SolverOutcome)
    (hg : Fantop.goodTicDat dat) (hfk : Fantop.fkOk dat) (hdt : Fantop.dtOk dat)
    (hs : Fantop.sequentialCheck dat = true) (he : Fantop.edpCheck dat = true)
    (hopt : o.optimal = false) :
    Fantop.solve dat o = .ok (["No draft at all is possible!"], none) :=
  Fantop.solve_nonoptimal dat o hg hfk hdt hs he hopt

/-- Witness for C5 at a concrete infeasible instance. -/
theorem C5_witness :
    Fantop.solve Fantop.datTwo Fantop.oNotOpt = .ok (["No draft at all is possible!"], none) :=
  C5_nonoptimal_message_and_none Fantop.datTwo Fantop.oNotOpt
    (by decide) (by decide) (by decide) (by decide) (by decide) rfl

/-- C1: on an input that passes the schema, foreign-key and data-type checks
and has a non-empty drafted table, `solve` fails with the
"draft positions should be sequential" assertion — uniformly in the solver
oracle, hence before the optimization model is built — exactly when the set of
drafted positions is not a contiguous range starting at 1 (the
`sequentialCheck` embedding of the assert's condition). -/
theorem C1_sequential_assertion (dat : Fantop.FanDat)
    (hg : Fantop.goodTicDat dat) (hfk : Fantop.fkOk dat) (hdt : Fantop.dtOk dat)
    (hne : dat.drafted ≠ []) :
    (Fantop.sequentialCheck dat = false →
      ∀ o : Fantop.SolverOutcome,
        Fantop.solve dat o = .error "draft positions should be sequential") ∧
    (Fantop.sequentialCheck dat = true →
      ∀ o : Fantop.SolverOutcome,
        Fantop.solve dat o ≠ .error "draft positions should be sequential") := by
  constructor
  · intro hs o
    unfold Fantop.solve
    simp [hg, hfk, hdt, hs]
  · intro hs o h
    unfold Fantop.solve at h
    simp [hg, hfk, hdt, hs] at h
    split_ifs at h <;> simp_all

/-- Witness for C1: a drafted table whose only position is 2 trips the
assertion for every oracle, and the contiguous variant does not. -/
theorem C1_witness :
    Fantop.solve Fantop.datNC Fantop.oNotOpt = .error "draft positions should be sequential" ∧
    Fantop.solve Fantop.datAct Fantop.oNotOpt ≠ .error "draft positions should be sequential" :=
  ⟨(C1_sequential_assertion Fantop.datNC (by decide) (by decide) (by decide)
      (by decide)).1 (by decide) Fantop.oNotOpt,
   (C1_sequential_assertion Fantop.datAct (by decide) (by decide) (by decide)
      (by decide)).2 (by decide) Fantop.oNotOpt⟩

/-- With no draft positions of mine, no drafted player counts as already
drafted by me. -/
lemma Fantop.alreadyDraftedByMe_nil (dat : Fantop.FanDat)
    (hemp : dat.my_draft_positions = []) : Fantop.alreadyDraftedByMe dat = [] := by
  unfold Fantop.alreadyDraftedByMe
  simp [hemp]

/-- C4: when `my_draft_positions` is empty (and the input assertions pass),
the two size constraints posted by `solve` demand a total draft size that is
both at least `len(already_drafted_by_me) + 1 = 1` and at most `0`, so no
valuation of the variables satisfies them; and provided the solver only
reports optimal for valuations satisfying its constraints, `solve` prints
"No draft at all is possible!" and returns no solution object. -/
theorem C4_empty_positions_infeasible (dat : Fantop.FanDat) (o : Fantop.SolverOutcome)
    (hg : Fantop.goodTicDat dat) (hfk : Fantop.fkOk dat) (hdt : Fantop.dtOk dat)
    (hs : Fantop.sequentialCheck dat = true) (he : Fantop.edpCheck dat = true)
    (hemp : dat.my_draft_positions = [])
    (hsound : o.optimal = true → Fantop.sizeConstraintsHold dat o) :
    (∀ o' : Fantop.SolverOutcome, ¬ Fantop.sizeConstraintsHold dat o') ∧
    Fantop.solve dat o = .ok (["No draft at all is possible!"], none) := by
  have hinf : ∀ o' : Fantop.SolverOutcome, ¬ Fantop.sizeConstraintsHold dat o' := by
    intro o' h
    obtain ⟨h1, h2⟩ := h
    rw [Fantop.alreadyDraftedByMe_nil dat hemp] at h1
    rw [hemp] at h2
    simp at h1 h2
    linarith
  refine ⟨hinf, ?_⟩
  have hopt : o.optimal = false := by
    cases hox : o.optimal
    · rfl
    · exact absurd (hsound hox) (hinf o)
  exact Fantop.solve_nonoptimal dat o hg hfk hdt hs he hopt

/-- Witness for C4 at a one-player instance with no draft positions. -/
theorem C4_witness :
    (∀ o' : Fantop.SolverOutcome, ¬ Fantop.sizeConstraintsHold Fantop.datNoPos o') ∧
    Fantop.solve Fantop.datNoPos Fantop.oNotOpt =
      .ok (["No draft at all is possible!"], none) :=
  C4_empty_positions_infeasible Fantop.datNoPos Fantop.oNotOpt
    (by decide) (by decide) (by decide) (by decide) (by decide) rfl
    (by intro h; simp [Fantop.oNotOpt] at h)

/-- First components of a zip: the first list truncated to the second's length. -/
lemma map_fst_zip_take {α β : Type} :
    ∀ (l₁ : List α) (l₂ : List β), (l₁.zip l₂).map Prod.fst = l₁.take l₂.length
  | [], _ => by simp
  | _ :: _, [] => by simp
  | a :: l₁, b :: l₂ => by
    simp [List.zip_cons_cons, map_fst_zip_take l₁ l₂]

/-- Second components of a zip: the second list truncated to the first's length. -/
lemma map_snd_zip_take {α β : Type} :
    ∀ (l₁ : List α) (l₂ : List β), (l₁.zip l₂).map Prod.snd = l₂.take l₁.length
  | [], _ => by simp
  | _ :: _, [] => by simp
  | a :: l₁, b :: l₂ => by
    simp [List.zip_cons_cons, map_snd_zip_take l₁ l₂]

namespace Fantop

/-- `almostone` is the tolerance test of the source: `abs(x - 1) < 0.0001`. -/
lemma almostone_iff (x : Rat) : almostone x = true ↔ |x - 1| < 1 / 10000 := by
  unfold almostone
  rw [decide_eq_true_eq]
  have hden : (0 : ℚ) < (x.den : ℚ) := by exact_mod_cast x.den_pos
  have hsub : x - 1 = ((x.num - (x.den : Int) : Int) : ℚ) / (x.den : ℚ) := by
    push_cast
    rw [sub_div, Rat.num_div_den, div_self (ne_of_gt hden)]
  rw [hsub, abs_div, abs_of_pos hden, div_lt_div_iff₀ hden (by norm_num)]
  rw [← Int.cast_abs, Int.abs_eq_natAbs, one_mul]
  exact_mod_cast Iff.rfl

/-- `picked` is ascending in expected draft position. -/
lemma picked_sorted (dat : FanDat) (o : SolverOutcome) :
    (picked dat o).Sorted fun a b => edpOf dat a ≤ edpOf dat b := by
  haveI : IsTotal String fun a b => edpOf dat a ≤ edpOf dat b :=
    ⟨fun a b => Nat.le_total _ _⟩
  haveI : IsTrans String fun a b => edpOf dat a ≤ edpOf dat b :=
    ⟨fun a b c => Nat.le_trans⟩
  exact List.sorted_insertionSort _ _

/-- `picked` consists of exactly the candidates one of whose variable values is
within the tolerance of 1. -/
lemma picked_perm_filter (dat : FanDat) (o : SolverOutcome) :
    (picked dat o).Perm ((canBeDraftedByMe dat).filter fun p =>
      almostone (o.starterVal p) || almostone (o.reserveVal p)) :=
  List.perm_insertionSort _ _

/-- `sortedPositions` is ascending. -/
lemma sortedPositions_sorted (dat : FanDat) :
    (sortedPositions dat).Sorted fun a b => a ≤ b := by
  haveI : IsTotal Nat fun a b => a ≤ b := ⟨fun a b => Nat.le_total _ _⟩
  haveI : IsTrans Nat fun a b => a ≤ b := ⟨fun a b c => Nat.le_trans⟩
  exact List.sorted_insertionSort _ _

/-- `sortedPositions` rearranges `my_draft_positions`. -/
lemma sortedPositions_perm (dat : FanDat) :
    (sortedPositions dat).Perm dat.my_draft_positions :=
  List.perm_insertionSort _ _

/-- The result of `solve` in the optimal branch, once every check passes. -/
lemma solve_optimal_eq (dat : FanDat) (o : SolverOutcome)
    (hg : goodTicDat dat) (hfk : fkOk dat) (hdt : dtOk dat)
    (hs : sequentialCheck dat = true) (he : edpCheck dat = true)
    (hopt : o.optimal = true)
    (hlen : (picked dat o).length ≤ dat.my_draft_positions.length)
    (hasrt : (((picked dat o).zip (sortedPositions dat)).all fun pd =>
        decide (pd.2 ≤ edpOf dat pd.1)) = true) :
    solve dat o = .ok
      ((if (picked dat o).length < dat.my_draft_positions.length
          then ["Your model is over-constrained, and thus only a partial draft was possible"]
          else []),
       some (((picked dat o).zip (sortedPositions dat)).map fun pd =>
         (pd.1, ⟨pd.2, playerPosition dat pd.1,
                 if pd.1 ∈ alreadyDraftedByMe dat then "Actual" else "Planned",
                 if almostone (o.starterVal pd.1) then "Starter" else "Reserve"⟩))) := by
  unfold solve
  simp [hg, hfk, hdt, hs, he, hopt, Nat.not_lt.mpr hlen, hasrt]

end Fantop

/-- C2: whenever the solver reports optimal (and the assertions of `solve`
hold), `solve` selects exactly the candidates whose starter or reserve value is
within 0.0001 of 1, orders them ascending by expected draft position, pairs
them with the ascending-sorted `my_draft_positions`, and returns one `my_draft`
row per picked player carrying the paired draft position. -/
theorem C2_extraction_structure (dat : Fantop.FanDat) (o : Fantop.SolverOutcome)
    (hg : Fantop.goodTicDat dat) (hfk : Fantop.fkOk dat) (hdt : Fantop.dtOk dat)
    (hs : Fantop.sequentialCheck dat = true) (he : Fantop.edpCheck dat = true)
    (hopt : o.optimal = true)
    (hlen : (Fantop.picked dat o).length ≤ dat.my_draft_positions.length)
    (hasrt : (((Fantop.picked dat o).zip (Fantop.sortedPositions dat)).all fun pd =>
        decide (pd.2 ≤ Fantop.edpOf dat pd.1)) = true) :
    ∃ m sln, Fantop.solve dat o = .ok (m, some sln) ∧
      sln.map Prod.fst = Fantop.picked dat o ∧
      (Fantop.picked dat o).Perm ((Fantop.canBeDraftedByMe dat).filter fun p =>
        Fantop.almostone (o.starterVal p) || Fantop.almostone (o.reserveVal p)) ∧
      (Fantop.picked dat o).Sorted (fun a b => Fantop.edpOf dat a ≤ Fantop.edpOf dat b) ∧
      (Fantop.sortedPositions dat).Perm dat.my_draft_positions ∧
      (Fantop.sortedPositions dat).Sorted (fun a b => a ≤ b) ∧
      sln.map (fun pr => pr.2.draftPosition) =
        (Fantop.sortedPositions dat).take (Fantop.picked dat o).length := by
  refine ⟨_, _, Fantop.solve_optimal_eq dat o hg hfk hdt hs he hopt hlen hasrt, ?_, ?_, ?_, ?_, ?_, ?_⟩
  · have hsp : (Fantop.sortedPositions dat).length = dat.my_draft_positions.length :=
      (Fantop.sortedPositions_perm dat).length_eq
    rw [List.map_map]
    have : (Prod.fst ∘ fun pd : String × Nat =>
        ((pd.1 : String), (⟨pd.2, Fantop.playerPosition dat pd.1,
          if pd.1 ∈ Fantop.alreadyDraftedByMe dat then "Actual" else "Planned",
          if Fantop.almostone (o.starterVal pd.1) then "Starter" else "Reserve"⟩ :
            Fantop.MyDraftRow))) = Prod.fst := by
      funext pd; rfl
    rw [this, map_fst_zip_take, hsp, List.take_of_length_le hlen]
  · exact Fantop.picked_perm_filter dat o
  · exact Fantop.picked_sorted dat o
  · exact Fantop.sortedPositions_perm dat
  · exact Fantop.sortedPositions_sorted dat
  · rw [List.map_map]
    have : ((fun pr : String × Fantop.MyDraftRow => pr.2.draftPosition) ∘
        fun pd : String × Nat =>
        ((pd.1 : String), (⟨pd.2, Fantop.playerPosition dat pd.1,
          if pd.1 ∈ Fantop.alreadyDraftedByMe dat then "Actual" else "Planned",
          if Fantop.almostone (o.starterVal pd.1) then "Starter" else "Reserve"⟩ :
            Fantop.MyDraftRow))) = Prod.snd := by
      funext pd; rfl
    rw [this, map_snd_zip_take]

/-- Witness for C2 at the two-player instance where the solver takes both. -/
theorem C2_witness :
    ∃ m sln, Fantop.solve Fantop.datTwo Fantop.oAllStart = .ok (m, some sln) ∧
      sln.map Prod.fst = Fantop.picked Fantop.datTwo Fantop.oAllStart ∧
      (Fantop.picked Fantop.datTwo Fantop.oAllStart).Perm
        ((Fantop.canBeDraftedByMe Fantop.datTwo).filter fun p =>
          Fantop.almostone (Fantop.oAllStart.starterVal p) ||
          Fantop.almostone (Fantop.oAllStart.reserveVal p)) ∧
      (Fantop.picked Fantop.datTwo Fantop.oAllStart).Sorted
        (fun a b => Fantop.edpOf Fantop.datTwo a ≤ Fantop.edpOf Fantop.datTwo b) ∧
      (Fantop.sortedPositions Fantop.datTwo).Perm Fantop.datTwo.my_draft_positions ∧
      (Fantop.sortedPositions Fantop.datTwo).Sorted (fun a b => a ≤ b) ∧
      sln.map (fun pr => pr.2.draftPosition) =
        (Fantop.sortedPositions Fantop.datTwo).take
          (Fantop.picked Fantop.datTwo Fantop.oAllStart).length :=
  C2_extraction_structure Fantop.datTwo Fantop.oAllStart
    (by decide) (by decide) (by decide) (by decide) (by decide) rfl
    (by decide) (by decide)

/-- C6: when the solver reports optimal but strictly fewer players are picked
than there are draft positions of mine, `solve` prints the over-constrained
warning and still returns the partial solution containing exactly the picked
players, instead of raising or returning nothing. -/
theorem C6_overconstrained_partial (dat : Fantop.FanDat) (o : Fantop.SolverOutcome)
    (hg : Fantop.goodTicDat dat) (hfk : Fantop.fkOk dat) (hdt : Fantop.dtOk dat)
    (hs : Fantop.sequentialCheck dat = true) (he : Fantop.edpCheck dat = true)
    (hopt : o.optimal = true)
    (hlt : (Fantop.picked dat o).length < dat.my_draft_positions.length)
    (hasrt : (((Fantop.picked dat o).zip (Fantop.sortedPositions dat)).all fun pd =>
        decide (pd.2 ≤ Fantop.edpOf dat pd.1)) = true) :
    ∃ sln, Fantop.solve dat o =
        .ok (["Your model is over-constrained, and thus only a partial draft was possible"],
             some sln) ∧
      sln.map Prod.fst = Fantop.picked dat o := by
  have heq := Fantop.solve_optimal_eq dat o hg hfk hdt hs he hopt (Nat.le_of_lt hlt) hasrt
  rw [if_pos hlt] at heq
  refine ⟨_, heq, ?_⟩
  have hsp : (Fantop.sortedPositions dat).length = dat.my_draft_positions.length :=
    (Fantop.sortedPositions_perm dat).length_eq
  rw [List.map_map]
  have : (Prod.fst ∘ fun pd : String × Nat =>
      ((pd.1 : String), (⟨pd.2, Fantop.playerPosition dat pd.1,
        if pd.1 ∈ Fantop.alreadyDraftedByMe dat then "Actual" else "Planned",
        if Fantop.almostone (o.starterVal pd.1) then "Starter" else "Reserve"⟩ :
          Fantop.MyDraftRow))) = Prod.fst := by
    funext pd; rfl
  rw [this, map_fst_zip_take, hsp, List.take_of_length_le (Nat.le_of_lt hlt)]

/-- Witness for C6: the solver takes only player A of a two-position draft. -/
theorem C6_witness :
    ∃ sln, Fantop.solve Fantop.datTwo Fantop.oOnlyA =
        .ok (["Your model is over-constrained, and thus only a partial draft was possible"],
             some sln) ∧
      sln.map Prod.fst = Fantop.picked Fantop.datTwo Fantop.oOnlyA :=
  C6_overconstrained_partial Fantop.datTwo Fantop.oOnlyA
    (by decide) (by decide) (by decide) (by decide) (by decide) rfl
    (by decide) (by decide)

/-- Inversion: a successful `solve` with a solution can only come from the
final branch, so the solution is the extraction of the picked players. -/
lemma Fantop.solve_ok_some (dat : Fantop.FanDat) (o : Fantop.SolverOutcome)
    (m : List String) (sln : Fantop.SlnTicDat)
    (h : Fantop.solve dat o = .ok (m, some sln)) :
    (Fantop.picked dat o).length ≤ dat.my_draft_positions.length ∧
    sln = ((Fantop.picked dat o).zip (Fantop.sortedPositions dat)).map fun pd =>
      (pd.1, ⟨pd.2, Fantop.playerPosition dat pd.1,
              if pd.1 ∈ Fantop.alreadyDraftedByMe dat then "Actual" else "Planned",
              if Fantop.almostone (o.starterVal pd.1) then "Starter" else "Reserve"⟩) := by
  unfold Fantop.solve at h
  rcases Decidable.em (Fantop.goodTicDat dat) with hg | hg
  swap
  · rw [if_pos hg] at h; exact Except.noConfusion h
  rw [if_neg (not_not_intro hg)] at h
  rcases Decidable.em (Fantop.fkOk dat) with hfk | hfk
  swap
  · rw [if_pos hfk] at h; exact Except.noConfusion h
  rw [if_neg (not_not_intro hfk)] at h
  rcases Decidable.em (Fantop.dtOk dat) with hdt | hdt
  swap
  · rw [if_pos hdt] at h; exact Except.noConfusion h
  rw [if_neg (not_not_intro hdt)] at h
  rcases Bool.eq_false_or_eq_true (Fantop.sequentialCheck dat) with hs | hs
  swap
  · rw [if_pos hs] at h; exact Except.noConfusion h
  rw [if_neg (show ¬ (Fantop.sequentialCheck dat = false) by simp [hs])] at h
  rcases Bool.eq_false_or_eq_true (Fantop.edpCheck dat) with he | he
  swap
  · rw [if_pos he] at h; exact Except.noConfusion h
  rw [if_neg (show ¬ (Fantop.edpCheck dat = false) by simp [he])] at h
  rcases Bool.eq_false_or_eq_true o.optimal with ho | ho
  swap
  · rw [if_pos ho] at h
    simp only [Except.ok.injEq, Prod.mk.injEq, reduceCtorEq] at h
    exact absurd h.2 (by simp)
  rw [if_neg (show ¬ (o.optimal = false) by simp [ho])] at h
  simp only at h
  rcases Decidable.em (dat.my_draft_positions.length < (Fantop.picked dat o).length)
    with hl | hl
  · rw [if_pos hl] at h; exact Except.noConfusion h
  rw [if_neg hl] at h
  rcases Bool.eq_false_or_eq_true (((Fantop.picked dat o).zip (Fantop.sortedPositions dat)).all
      fun pd => decide (pd.2 ≤ Fantop.edpOf dat pd.1)) with ha | ha
  swap
  · rw [if_pos ha] at h; exact Except.noConfusion h
  rw [if_neg (show ¬ ((((Fantop.picked dat o).zip (Fantop.sortedPositions dat)).all
      fun pd => decide (pd.2 ≤ Fantop.edpOf dat pd.1)) = false) by simp [ha])] at h
  simp only [Except.ok.injEq, Prod.mk.injEq, Option.some.injEq] at h
  exact ⟨Nat.not_lt.mp hl, h.2.symm⟩

/-- C3: in any solution object returned by `solve` under a type-respecting
solver valuation satisfying the already-drafted equality constraints, every
player already drafted at one of my draft positions appears with
`Planned Or Actual` equal to "Actual", and every other returned row carries
"Planned". -/
theorem C3_actual_versus_planned (dat : Fantop.FanDat) (o : Fantop.SolverOutcome)
    (m : List String) (sln : Fantop.SlnTicDat)
    (hok : Fantop.solve dat o = .ok (m, some sln))
    (hbin : Fantop.binaryValues dat o)
    (hcon : Fantop.alreadyDraftedConstraintsHold dat o) :
    (∀ p ∈ Fantop.alreadyDraftedByMe dat,
        ∃ row, (p, row) ∈ sln ∧ row.plannedOrActual = "Actual") ∧
    (∀ pr ∈ sln, pr.1 ∉ Fantop.alreadyDraftedByMe dat →
        pr.2.plannedOrActual = "Planned") := by
  obtain ⟨hlen, hsln⟩ := Fantop.solve_ok_some dat o m sln hok
  subst hsln
  constructor
  · intro p hp
    have hcan : p ∈ Fantop.canBeDraftedByMe dat := List.mem_append_right _ hp
    have hfil : p ∈ (Fantop.canBeDraftedByMe dat).filter fun q =>
        Fantop.almostone (o.starterVal q) || Fantop.almostone (o.reserveVal q) := by
      refine List.mem_filter.mpr ⟨hcan, ?_⟩
      have hsum := hcon p hp
      obtain ⟨hsv, hrv⟩ := hbin p hcan
      have hone : Fantop.almostone 1 = true := by decide
      rcases hsv with hs0 | hs1
      · rcases hrv with hr0 | hr1
        · rw [hs0, hr0] at hsum; norm_num at hsum
        · simp [hr1, hone]
      · simp [hs1, hone]
    have hpk : p ∈ Fantop.picked dat o :=
      (Fantop.picked_perm_filter dat o).mem_iff.mpr hfil
    have hsp : (Fantop.sortedPositions dat).length = dat.my_draft_positions.length :=
      (Fantop.sortedPositions_perm dat).length_eq
    have hfst : ((Fantop.picked dat o).zip (Fantop.sortedPositions dat)).map Prod.fst =
        Fantop.picked dat o := by
      rw [map_fst_zip_take, hsp, List.take_of_length_le hlen]
    have hmem : p ∈ ((Fantop.picked dat o).zip (Fantop.sortedPositions dat)).map Prod.fst := by
      rw [hfst]; exact hpk
    obtain ⟨pd, hpd, hpdfst⟩ := List.mem_map.mp hmem
    refine ⟨⟨pd.2, Fantop.playerPosition dat pd.1,
      if pd.1 ∈ Fantop.alreadyDraftedByMe dat then "Actual" else "Planned",
      if Fantop.almostone (o.starterVal pd.1) then "Starter" else "Reserve"⟩, ?_, ?_⟩
    · rw [← hpdfst]
      exact List.mem_map.mpr ⟨pd, hpd, rfl⟩
    · have : pd.1 ∈ Fantop.alreadyDraftedByMe dat := hpdfst ▸ hp
      simp [this]
  · intro pr hpr hnot
    obtain ⟨pd, hpd, hpdeq⟩ := List.mem_map.mp hpr
    have h1 : pr.1 = pd.1 := by rw [← hpdeq]
    rw [h1] at hnot
    rw [← hpdeq]
    simp [hnot]

/-- Witness for C3: player A was drafted at position 1, one of my positions,
and comes back marked Actual while B comes back Planned. -/
theorem C3_witness :
    (∀ p ∈ Fantop.alreadyDraftedByMe Fantop.datAct,
        ∃ row, (p, row) ∈ ([("A", ⟨1, "QB", "Actual", "Starter"⟩),
                            ("B", ⟨2, "RB", "Planned", "Reserve"⟩)] : Fantop.SlnTicDat) ∧
          row.plannedOrActual = "Actual") ∧
    (∀ pr ∈ ([("A", ⟨1, "QB", "Actual", "Starter"⟩),
              ("B", ⟨2, "RB", "Planned", "Reserve"⟩)] : Fantop.SlnTicDat),
        pr.1 ∉ Fantop.alreadyDraftedByMe Fantop.datAct →
          pr.2.plannedOrActual = "Planned") :=
  C3_actual_versus_planned Fantop.datAct Fantop.oAct []
    [("A", ⟨1, "QB", "Actual", "Starter"⟩), ("B", ⟨2, "RB", "Planned", "Reserve"⟩)]
    (by decide) (by decide)
    (by simp [Fantop.alreadyDraftedConstraintsHold, Fantop.alreadyDraftedByMe,
              Fantop.datAct, Fantop.oAct, alookup, keys])

/-- If `l` is ascending under `f` and, for each position `i` of `ds`, at most
`i` elements of `l` lie strictly below the `i`-th element of `ds` under `f`,
then zipping `l` with `ds` pairs each element with a value that does not
exceed its `f`-value. -/
lemma zip_le_of_counting {α : Type} (f : α → Nat) (l : List α) (ds : List Nat)
    (hsort : l.Pairwise fun a b => f a ≤ f b)
    (hcount : ∀ i, (hi : i < ds.length) →
      ((l.filter fun a => decide (f a < ds.get ⟨i, hi⟩)).length ≤ i)) :
    ∀ pd ∈ l.zip ds, pd.2 ≤ f pd.1 := by
  intro pd hpd
  obtain ⟨i, hi, hget⟩ := List.mem_iff_getElem.mp hpd
  rw [List.getElem_zip] at hget
  have hil : i < l.length := by
    have := hi; rw [List.length_zip] at this; omega
  have hid : i < ds.length := by
    have := hi; rw [List.length_zip] at this; omega
  subst hget
  simp only
  by_contra hlt
  push_neg at hlt
  have key : ∀ j, (hj : j < l.length) → j ≤ i → f (l.get ⟨j, hj⟩) < ds.get ⟨i, hid⟩ := by
    intro j hj hji
    rcases Nat.lt_or_ge j i with hj2 | hj2
    · have := List.pairwise_iff_getElem.mp hsort j i hj hil hj2
      calc f (l.get ⟨j, hj⟩) ≤ f l[i] := this
        _ < ds.get ⟨i, hid⟩ := hlt
    · have : j = i := Nat.le_antisymm hji hj2
      subst this
      exact hlt
  have htake : (l.take (i + 1)).filter (fun a => decide (f a < ds.get ⟨i, hid⟩)) =
      l.take (i + 1) := by
    refine List.filter_eq_self.mpr ?_
    intro x hx
    obtain ⟨j, hj, hjx⟩ := List.mem_iff_getElem.mp hx
    have hjlen : j < l.length := by
      have := hj; rw [List.length_take] at this; omega
    have hji : j ≤ i := by
      have := hj; rw [List.length_take] at this; omega
    rw [List.getElem_take] at hjx
    subst hjx
    exact decide_eq_true (key j hjlen hji)
  have hlen1 : (l.take (i + 1)).length = i + 1 := by
    rw [List.length_take]; omega
  have hle : (l.take (i + 1)).length ≤
      (l.filter fun a => decide (f a < ds.get ⟨i, hid⟩)).length := by
    calc (l.take (i + 1)).length
        = ((l.take (i + 1)).filter fun a => decide (f a < ds.get ⟨i, hid⟩)).length := by
          rw [htake]
      _ ≤ (l.filter fun a => decide (f a < ds.get ⟨i, hid⟩)).length :=
          ((List.take_sublist (i + 1) l).filter _).length_le
  have := hcount i hid
  omega

/-- C10: under the availability hypothesis — for each index `i`, at most `i`
picked players have an expected draft position strictly earlier than the
`i`-th smallest of my draft positions — every picked player paired with the
ascending-sorted draft positions receives a position no later than his
expected draft position, so the `assert` in the output loop of `solve` never
fires. -/
theorem C10_assigned_le_expected (dat : Fantop.FanDat) (o : Fantop.SolverOutcome)
    (hcount : ∀ i, (hi : i < (Fantop.sortedPositions dat).length) →
      (((Fantop.picked dat o).filter fun p =>
          decide (Fantop.edpOf dat p < (Fantop.sortedPositions dat).get ⟨i, hi⟩)).length ≤ i)) :
    (∀ pd ∈ (Fantop.picked dat o).zip (Fantop.sortedPositions dat),
        pd.2 ≤ Fantop.edpOf dat pd.1) ∧
    (((Fantop.picked dat o).zip (Fantop.sortedPositions dat)).all fun pd =>
        decide (pd.2 ≤ Fantop.edpOf dat pd.1)) = true := by
  have hmain := zip_le_of_counting (Fantop.edpOf dat) (Fantop.picked dat o)
    (Fantop.sortedPositions dat) (Fantop.picked_sorted dat o) hcount
  exact ⟨hmain, List.all_eq_true.mpr fun pd hpd => decide_eq_true (hmain pd hpd)⟩

/-- Witness for C10 at the instance with an already-drafted player. -/
theorem C10_witness :
    (∀ pd ∈ (Fantop.picked Fantop.datAct Fantop.oAct).zip
        (Fantop.sortedPositions Fantop.datAct),
        pd.2 ≤ Fantop.edpOf Fantop.datAct pd.1) ∧
    (((Fantop.picked Fantop.datAct Fantop.oAct).zip
        (Fantop.sortedPositions Fantop.datAct)).all fun pd =>
        decide (pd.2 ≤ Fantop.edpOf Fantop.datAct pd.1)) = true :=
  C10_assigned_le_expected Fantop.datAct Fantop.oAct (by decide)

/-- The keys of `assignFrom n l` are `l` itself. -/
lemma keys_assignFrom : ∀ (l : List String) (n : Nat), keys (Fantop.assignFrom n l) = l
  | [], _ => rfl
  | p :: rest, n => by
    unfold Fantop.assignFrom
    simp only [keys, List.map_cons]
    exact congrArg (p :: ·) (keys_assignFrom rest (n + 1))

/-- The values of `assignFrom n l` are the consecutive range starting at `n`. -/
lemma snd_assignFrom : ∀ (l : List String) (n : Nat),
    (Fantop.assignFrom n l).map Prod.snd = List.range' n l.length
  | [], _ => rfl
  | p :: rest, n => by
    unfold Fantop.assignFrom
    simp only [List.map_cons, List.length_cons, List.range'_succ]
    exact congrArg (n :: ·) (snd_assignFrom rest (n + 1))

/-- Lookup in an append stays in the left part when the key is there. -/
lemma alookup_append_left {β : Type} :
    ∀ (l₁ l₂ : List (String × β)) (x : String), x ∈ keys l₁ →
      alookup (l₁ ++ l₂) x = alookup l₁ x
  | [], _, x, hx => by simp [keys] at hx
  | (k, v) :: rest, l₂, x, hx => by
    rw [List.cons_append]
    by_cases hxk : x = k
    · simp [alookup, hxk]
    · simp only [alookup, if_neg hxk]
      refine alookup_append_left rest l₂ x ?_
      simp only [keys, List.map_cons, List.mem_cons] at hx
      exact hx.resolve_left hxk

/-- Lookup finds the unique binding of a key in a nodup-keyed list. -/
lemma alookup_eq_some_of_mem_nodup {β : Type} :
    ∀ (l : List (String × β)), (keys l).Nodup → ∀ kv ∈ l, alookup l kv.1 = some kv.2
  | [], _, kv, hkv => by simp at hkv
  | (k, v) :: rest, hnd, kv, hkv => by
    simp only [keys, List.map_cons, List.nodup_cons] at hnd
    unfold alookup
    rcases List.mem_cons.mp hkv with heq | hmem
    · subst heq; simp
    · have hne : kv.1 ≠ k := by
        intro hcontra
        exact hnd.1 (hcontra ▸ List.mem_map.mpr ⟨kv, hmem, rfl⟩)
      rw [if_neg hne]
      exact alookup_eq_some_of_mem_nodup rest hnd.2 kv hmem

/-- A duplicate-free list of naturals whose minimum is 1 and whose maximum is
its own length is a permutation of the range 1..length. -/
lemma perm_range'_of_min_max (l : List Nat) (hnd : l.Nodup)
    (hmin : l.min? = some 1) (hmax : l.max? = some l.length) :
    l.Perm (List.range' 1 l.length) := by
  obtain ⟨-, hminall⟩ := List.min?_eq_some_iff'.mp hmin
  obtain ⟨-, hmaxall⟩ := List.max?_eq_some_iff'.mp hmax
  have hsub : l ⊆ List.range' 1 l.length := by
    intro x hx
    rw [List.mem_range'_1]
    exact ⟨hminall x hx, Nat.lt_succ_of_le (hmaxall x hx) |>.trans_le (by omega)⟩
  have hsp := List.subperm_of_subset hnd hsub
  exact hsp.perm_of_length_le (by rw [List.length_range'])

/-- C9 counterexample: two players drafted at the same position pass the
foreign-key check and the "sequential draft positions" assertion (their
position set is the contiguous {1}), yet `expected_draft_position` is not
injective — so it is no bijection — and the consistency assertions of lines
88-89 fail, for every solver oracle. -/
theorem C9_counterexample :
    Fantop.goodTicDat Fantop.dat9 ∧ Fantop.fkOk Fantop.dat9 ∧ Fantop.dtOk Fantop.dat9 ∧
    Fantop.sequentialCheck Fantop.dat9 = true ∧
    ¬ (Fantop.edpValues Fantop.dat9).Nodup ∧
    Fantop.edpCheck Fantop.dat9 = false ∧
    (∀ o : Fantop.SolverOutcome,
      Fantop.solve Fantop.dat9 o = .error "expected_draft_position consistency") := by
  refine ⟨by decide, by decide, by decide, by decide, by decide, by decide, ?_⟩
  intro o
  unfold Fantop.solve
  simp [show Fantop.goodTicDat Fantop.dat9 by decide,
        show Fantop.fkOk Fantop.dat9 by decide,
        show Fantop.dtOk Fantop.dat9 by decide,
        show Fantop.sequentialCheck Fantop.dat9 = true by decide,
        show Fantop.edpCheck Fantop.dat9 = false by decide]

/-- C9, amended: assuming additionally that no two drafted players share a
draft position and that the players table is non-empty, the
`expected_draft_position` map is a bijection from the players onto
1..len(players) agreeing with the drafted table: its keys are a permutation
of the player names, its values are a permutation of the range, it looks up
every drafted player to his actual position, and the assertions of lines
88-89 of the source hold. -/
theorem C9_amended_bijection (dat : Fantop.FanDat)
    (hg : Fantop.goodTicDat dat) (hfk : Fantop.fkOk dat)
    (hs : Fantop.sequentialCheck dat = true)
    (hnd : (dat.drafted.map Prod.snd).Nodup)
    (hne : dat.players ≠ []) :
    (keys (Fantop.expectedDraftPositionList dat)).Perm (keys dat.players) ∧
    (Fantop.edpValues dat).Perm (List.range' 1 dat.players.length) ∧
    (∀ d ∈ dat.drafted, alookup (Fantop.expectedDraftPositionList dat) d.1 = some d.2) ∧
    Fantop.edpCheck dat = true := by
  obtain ⟨-, hpnd, -, hdnd, -⟩ := hg
  have hsubk : ∀ x ∈ keys dat.drafted, x ∈ keys dat.players := by
    intro x hx
    obtain ⟨d, hd, rfl⟩ := List.mem_map.mp hx
    exact hfk.1 d hd
  have hpermU : (Fantop.undraftedSorted dat).Perm
      ((keys dat.players).filter fun p => decide (¬ p ∈ keys dat.drafted)) :=
    List.perm_insertionSort _ _
  have hpredeq : ((keys dat.players).filter fun p => decide (¬ p ∈ keys dat.drafted)) =
      ((keys dat.players).filter fun p => !(decide (p ∈ keys dat.drafted))) :=
    List.filter_congr fun x _ => by rw [decide_not]
  have hfil : ((keys dat.players).filter fun p => decide (p ∈ keys dat.drafted)).Perm
      (keys dat.drafted) := by
    apply List.Subperm.antisymm
    · apply List.subperm_of_subset (hpnd.filter _)
      intro x hx
      exact of_decide_eq_true (List.mem_filter.mp hx).2
    · apply List.subperm_of_subset hdnd
      intro x hx
      exact List.mem_filter.mpr ⟨hsubk x hx, decide_eq_true hx⟩
  have hkeyperm : (keys dat.drafted ++
      ((keys dat.players).filter fun p => decide (¬ p ∈ keys dat.drafted))).Perm
      (keys dat.players) := by
    rw [hpredeq]
    exact List.Perm.trans
      (hfil.symm.append (List.Perm.refl _))
      (List.filter_append_perm (fun p => decide (p ∈ keys dat.drafted)) (keys dat.players))
  have hkeysedp : keys (Fantop.expectedDraftPositionList dat) =
      keys dat.drafted ++ Fantop.undraftedSorted dat := by
    unfold Fantop.expectedDraftPositionList keys
    rw [List.map_append]
    exact congrArg _ (keys_assignFrom _ _)
  have hconc1 : (keys (Fantop.expectedDraftPositionList dat)).Perm (keys dat.players) := by
    rw [hkeysedp]
    exact List.Perm.trans ((List.Perm.refl _).append hpermU) hkeyperm
  have hKU : dat.drafted.length + (Fantop.undraftedSorted dat).length =
      dat.players.length := by
    have hlen := hconc1.length_eq
    rw [hkeysedp] at hlen
    simp only [keys, List.length_append, List.length_map] at hlen
    exact hlen
  have hvals : Fantop.edpValues dat = dat.drafted.map Prod.snd ++
      List.range' (dat.drafted.length + 1) (Fantop.undraftedSorted dat).length := by
    unfold Fantop.edpValues Fantop.expectedDraftPositionList
    rw [List.map_append, snd_assignFrom]
  have hdvals : (dat.drafted.map Prod.snd).Perm (List.range' 1 dat.drafted.length) := by
    by_cases hdne : dat.drafted = []
    · rw [hdne]; exact List.Perm.refl _
    · unfold Fantop.sequentialCheck at hs
      rw [List.isEmpty_eq_false.mpr hdne] at hs
      simp only [Bool.false_or, Bool.and_eq_true, decide_eq_true_eq] at hs
      obtain ⟨hmin, hmax⟩ := hs
      rw [List.dedup_eq_self.mpr hnd] at hmin hmax
      have := perm_range'_of_min_max (dat.drafted.map Prod.snd) hnd hmin hmax
      rw [List.length_map] at this
      exact this
  have hranges : List.range' 1 dat.drafted.length ++
      List.range' (dat.drafted.length + 1) (Fantop.undraftedSorted dat).length =
      List.range' 1 dat.players.length := by
    have h := List.range'_append 1 dat.drafted.length
      (Fantop.undraftedSorted dat).length 1
    rw [Nat.one_mul, Nat.add_comm 1 dat.drafted.length] at h
    rw [h, Nat.add_comm (Fantop.undraftedSorted dat).length dat.drafted.length, hKU]
  have hconc2 : (Fantop.edpValues dat).Perm (List.range' 1 dat.players.length) := by
    rw [hvals, ← hranges]
    exact hdvals.append (List.Perm.refl _)
  have hconc3 : ∀ d ∈ dat.drafted,
      alookup (Fantop.expectedDraftPositionList dat) d.1 = some d.2 := by
    intro d hd
    unfold Fantop.expectedDraftPositionList
    rw [alookup_append_left _ _ _ (List.mem_map.mpr ⟨d, hd, rfl⟩)]
    exact alookup_eq_some_of_mem_nodup dat.drafted hdnd d hd
  refine ⟨hconc1, hconc2, hconc3, ?_⟩
  have hN1 : 1 ≤ dat.players.length := List.length_pos.mpr hne
  have hvnodup : (Fantop.edpValues dat).Nodup :=
    hconc2.nodup_iff.mpr (List.nodup_range' _ _)
  have hdedup : (Fantop.edpValues dat).dedup = Fantop.edpValues dat :=
    List.dedup_eq_self.mpr hvnodup
  have hvlen : (Fantop.edpValues dat).length = dat.players.length := by
    rw [hconc2.length_eq, List.length_range']
  have hmax2 : (Fantop.edpValues dat).max? = some dat.players.length := by
    apply List.max?_eq_some_iff'.mpr
    constructor
    · exact hconc2.mem_iff.mpr (List.mem_range'_1.mpr ⟨hN1, by omega⟩)
    · intro b hb
      have := List.mem_range'_1.mp (hconc2.subset hb)
      omega
  have hmin2 : (Fantop.edpValues dat).min? = some 1 := by
    apply List.min?_eq_some_iff'.mpr
    constructor
    · exact hconc2.mem_iff.mpr (List.mem_range'_1.mpr ⟨Nat.le_refl 1, by omega⟩)
    · intro b hb
      have := List.mem_range'_1.mp (hconc2.subset hb)
      omega
  unfold Fantop.edpCheck
  simp only [hdedup, hvlen, hmax2, hmin2]
  simp

/-- Witness for the amended C9 at the already-drafted instance. -/
theorem C9_amended_witness :
    (keys (Fantop.expectedDraftPositionList Fantop.datAct)).Perm (keys Fantop.datAct.players) ∧
    (Fantop.edpValues Fantop.datAct).Perm (List.range' 1 Fantop.datAct.players.length) ∧
    (∀ d ∈ Fantop.datAct.drafted,
      alookup (Fantop.expectedDraftPositionList Fantop.datAct) d.1 = some d.2) ∧
    Fantop.edpCheck Fantop.datAct = true :=
  C9_amended_bijection Fantop.datAct
    (by decide) (by decide) (by decide) (by decide) (by decide)

/-- `withIdx` preserves length. -/
lemma withIdx_length {α : Type} : ∀ (l : List α) (n : Nat), (withIdx l n).length = l.length
  | [], _ => rfl
  | _ :: rest, n => by
    unfold withIdx
    simp only [List.length_cons]
    exact congrArg (· + 1) (withIdx_length rest (n + 1))

/-- The `i`-th entry of `withIdx l n` is the pair of `n + i` and the `i`-th
element of `l`. -/
lemma withIdx_getElem {α : Type} :
    ∀ (l : List α) (n i : Nat) (hi : i < l.length),
      (withIdx l n).get ⟨i, by rw [withIdx_length]; exact hi⟩ = (n + i, l.get ⟨i, hi⟩)
  | _ :: _, _, 0, _ => by simp [withIdx]
  | _ :: rest, n, i + 1, hi => by
    have := withIdx_getElem rest (n + 1) i (Nat.lt_of_succ_lt_succ hi)
    simp only [withIdx, List.get_cons_succ]
    rw [this]
    congr 1
    omega

/-- The keys of a column list built over `withIdx` are the field names. -/
lemma keys_withIdx_map {β : Type} (g : Nat → β) :
    ∀ (fs : List String) (n : Nat),
      keys ((withIdx fs n).map fun jf => (jf.2, g jf.1)) = fs
  | [], _ => rfl
  | f :: rest, n => by
    unfold withIdx
    simp only [List.map_cons, keys]
    exact congrArg (f :: ·) (keys_withIdx_map g rest (n + 1))

/-- Looking up the `j`-th field name in a column list built over `withIdx`
returns the column generated for index `n + j`, provided field names are
unique. -/
lemma alookup_withIdx_map {β : Type} (g : Nat → β) :
    ∀ (fs : List String) (n j : Nat) (hj : j < fs.length), fs.Nodup →
      alookup ((withIdx fs n).map fun jf => (jf.2, g jf.1)) (fs.get ⟨j, hj⟩) =
        some (g (n + j))
  | [], _, j, hj, _ => absurd hj (by simp)
  | f :: rest, n, 0, hj, _ => by
    simp [withIdx, alookup]
  | f :: rest, n, j + 1, hj, hnd => by
    simp only [List.nodup_cons] at hnd
    have hkey : (f :: rest).get ⟨j + 1, hj⟩ = rest.get ⟨j, Nat.lt_of_succ_lt_succ hj⟩ :=
      List.get_cons_succ
    have hne : rest.get ⟨j, Nat.lt_of_succ_lt_succ hj⟩ ≠ f := by
      intro hcontra
      exact hnd.1 (hcontra ▸ List.get_mem rest _ _)
    simp only [withIdx, List.map_cons, alookup, hkey, if_neg hne]
    have := alookup_withIdx_map g rest (n + 1) j (Nat.lt_of_succ_lt_succ hj) hnd.2
    rw [this]
    congr 2
    omega

/-- Lookup in an append skips the left part when the key is absent there. -/
lemma alookup_append_right {β : Type} :
    ∀ (l₁ l₂ : List (String × β)) (x : String), ¬ x ∈ keys l₁ →
      alookup (l₁ ++ l₂) x = alookup l₂ x
  | [], _, _, _ => rfl
  | (k, v) :: rest, l₂, x, hx => by
    rw [List.cons_append]
    have hne : x ≠ k := by
      intro hcontra
      exact hx (by simp [keys, hcontra])
    simp only [alookup, if_neg hne]
    refine alookup_append_right rest l₂ x ?_
    intro hmem
    exact hx (by simp [keys] at hmem ⊢; exact Or.inr hmem)

namespace TicPandas

/-- Rebuilding the primary-key tuple from its index entry is the identity on
tuples of the declared width. -/
lemma unIndex_mkIndex (sch : TableSchema) (pk : List CellVal)
    (hlen : pk.length = sch.pkFields.length) :
    unIndex (mkIndex sch pk) = pk := by
  unfold mkIndex unIndex
  by_cases h1 : sch.pkFields.length = 1
  · rw [if_pos h1]
    obtain ⟨x, hx⟩ := List.length_eq_one.mp (hlen.trans h1)
    subst hx
    rfl
  · rw [if_neg h1]

/-- `mkIndex` is injective on tuples of the declared width. -/
lemma mkIndex_inj (sch : TableSchema) (a b : List CellVal)
    (ha : a.length = sch.pkFields.length) (hb : b.length = sch.pkFields.length)
    (h : mkIndex sch a = mkIndex sch b) : a = b := by
  have := congrArg unIndex h
  rwa [unIndex_mkIndex sch a ha, unIndex_mkIndex sch b hb] at this

/-- Looking a row's index up in a column built over the rows returns that
row's cell, when the rows' primary keys are unique and well-shaped. -/
lemma alookup_col_mkIndex (sch : TableSchema) (v : List CellVal × List CellVal → CellVal) :
    ∀ (rows : TableRows), (rows.map Prod.fst).Nodup →
      (∀ r ∈ rows, r.1.length = sch.pkFields.length) →
      ∀ r ∈ rows,
        alookup (rows.map fun q => (mkIndex sch q.1, v q)) (mkIndex sch r.1) = some (v r)
  | [], _, _, r, hr => absurd hr (by simp)
  | r0 :: rest, hnd, hshape, r, hr => by
    simp only [List.map_cons, List.nodup_cons] at hnd
    rcases List.mem_cons.mp hr with heq | hmem
    · subst heq
      simp [alookup]
    · have hne : mkIndex sch r.1 ≠ mkIndex sch r0.1 := by
        intro hcontra
        have := mkIndex_inj sch r.1 r0.1
          (hshape r hr) (hshape r0 (List.mem_cons_self r0 rest)) hcontra
        exact hnd.1 (this ▸ List.mem_map.mpr ⟨r, hmem, rfl⟩)
      simp only [List.map_cons, alookup, if_neg hne]
      exact alookup_col_mkIndex sch v rest hnd.2
        (fun q hq => hshape q (List.mem_cons_of_mem r0 hq)) r hmem

/-- The column found for the `j`-th data field of a converted table. -/
lemma columns_lookup (sch : TableSchema) (rows : TableRows) (b : Bool)
    (hfields : (sch.pkFields ++ sch.dataFields).Nodup)
    (j : Nat) (hj : j < sch.dataFields.length) :
    alookup (copy_to_pandas sch rows b).columns (sch.dataFields.get ⟨j, hj⟩) =
      some (rows.map fun r => (mkIndex sch r.1, r.2.getD j (.str ""))) := by
  obtain ⟨hpknd, hdnd, hdisj⟩ := List.nodup_append.mp hfields
  have hdata := alookup_withIdx_map
    (fun i => rows.map fun r => (mkIndex sch r.1, r.2.getD i (CellVal.str "")))
    sch.dataFields 0 j hj hdnd
  rw [Nat.zero_add] at hdata
  unfold copy_to_pandas
  cases b
  · simp only [Bool.false_eq_true, if_false]
    rw [alookup_append_right]
    · exact hdata
    · rw [keys_withIdx_map
        (fun i => rows.map fun r => (mkIndex sch r.1, r.1.getD i (CellVal.str "")))]
      intro hmem
      exact hdisj hmem (List.get_mem sch.dataFields j hj)
  · simp only [if_pos rfl]
    exact hdata

end TicPandas

/-- `keys` distributes over append. -/
lemma keys_append {α β : Type} (l₁ l₂ : List (α × β)) :
    keys (l₁ ++ l₂) = keys l₁ ++ keys l₂ :=
  List.map_append Prod.fst l₁ l₂

/-- `getElem` form of `withIdx_getElem`. -/
lemma withIdx_getElem' {α : Type} (l : List α) (n i : Nat)
    (h : i < (withIdx l n).length) (hi : i < l.length) :
    (withIdx l n)[i] = (n + i, l[i]) := by
  have := withIdx_getElem l n i hi
  simpa [List.get_eq_getElem] using this

/-- C7: converting a table to the columnar (pandas) form and back is the
identity on rows restricted to the declared fields, for either value of the
primary-key-column-drop flag; moreover every data cell survives: looking the
row's index up in the converted column of the `j`-th data field returns
exactly the value stored in the row. -/
theorem C7_roundtrip_and_cell_preservation (sch : TicPandas.TableSchema)
    (rows : TicPandas.TableRows) (b : Bool)
    (hshape : ∀ r ∈ rows,
      r.1.length = sch.pkFields.length ∧ r.2.length = sch.dataFields.length)
    (hfields : (sch.pkFields ++ sch.dataFields).Nodup)
    (hpk : (rows.map Prod.fst).Nodup) :
    TicPandas.from_pandas sch (TicPandas.copy_to_pandas sch rows b) = rows ∧
    (∀ r ∈ rows, ∀ j, (hj : j < sch.dataFields.length) →
      alookup (TicPandas.colOf (TicPandas.copy_to_pandas sch rows b)
          (sch.dataFields.get ⟨j, hj⟩)) (TicPandas.mkIndex sch r.1) =
        some (r.2.getD j (.str ""))) := by
  have hcols : ∀ j, (hj : j < sch.dataFields.length) →
      alookup (TicPandas.copy_to_pandas sch rows b).columns (sch.dataFields.get ⟨j, hj⟩) =
        some (rows.map fun r => (TicPandas.mkIndex sch r.1, r.2.getD j (.str ""))) :=
    fun j hj => TicPandas.columns_lookup sch rows b hfields j hj
  have hidx : (TicPandas.copy_to_pandas sch rows b).index =
      rows.map fun r => TicPandas.mkIndex sch r.1 := by
    unfold TicPandas.copy_to_pandas
    cases b <;> simp
  constructor
  · unfold TicPandas.from_pandas
    rw [hidx]
    apply List.ext_getElem
    · rw [List.length_map, withIdx_length, List.length_map]
    intro i h1 h2
    rw [List.length_map, withIdx_length, List.length_map] at h1
    rw [List.getElem_map,
        withIdx_getElem' (rows.map fun r => TicPandas.mkIndex sch r.1) 0 i
          (by rw [withIdx_length, List.length_map]; exact h1)
          (by rw [List.length_map]; exact h1)]
    simp only [Nat.zero_add, List.getElem_map]
    have hrmem : rows[i] ∈ rows := List.getElem_mem h2
    obtain ⟨hsh1, hsh2⟩ := hshape rows[i] hrmem
    refine Prod.ext ?_ ?_
    · simpa using TicPandas.unIndex_mkIndex sch rows[i].1 hsh1
    · simp only
      apply List.ext_getElem
      · rw [List.length_map]; exact hsh2.symm
      intro j hj1 hj2
      rw [List.length_map] at hj1
      rw [List.getElem_map]
      have hget : sch.dataFields[j] = sch.dataFields.get ⟨j, hj1⟩ := rfl
      rw [hget, hcols j hj1]
      simp only [Option.getD_some]
      have hcollen : i < (rows.map fun r =>
          (TicPandas.mkIndex sch r.1, r.2.getD j (.str ""))).length := by
        rw [List.length_map]; exact h2
      rw [List.getD_eq_getElem _ _ hcollen, List.getElem_map]
      simp only
      rw [List.getD_eq_getElem _ _ (by rw [hsh2]; exact hj1)]
  · intro r hr j hj
    unfold TicPandas.colOf
    rw [hcols j hj]
    simp only [Option.getD_some]
    exact TicPandas.alookup_col_mkIndex sch (fun q => q.2.getD j (.str "")) rows hpk
      (fun q hq => (hshape q hq).1) r hr

/-- Witness for C7 at the single-field-key table with two rows. -/
theorem C7_witness :
    TicPandas.from_pandas TicPandas.schFoods
      (TicPandas.copy_to_pandas TicPandas.schFoods TicPandas.rowsFoods true) =
      TicPandas.rowsFoods ∧
    (∀ r ∈ TicPandas.rowsFoods, ∀ j,
      (hj : j < TicPandas.schFoods.dataFields.length) →
      alookup (TicPandas.colOf
          (TicPandas.copy_to_pandas TicPandas.schFoods TicPandas.rowsFoods true)
          (TicPandas.schFoods.dataFields.get ⟨j, hj⟩))
        (TicPandas.mkIndex TicPandas.schFoods r.1) = some (r.2.getD j (.str ""))) :=
  C7_roundtrip_and_cell_preservation TicPandas.schFoods TicPandas.rowsFoods true
    (by decide) (by decide) (by decide)

/-- C8: a single-field primary key is collapsed to a scalar index and a
multi-field primary key to a tuple (multi-level) index; by default the
primary-key columns are dropped, so the converted table's columns are exactly
the data fields, and with the flag off they are retained in front. -/
theorem C8_index_shape_and_pk_columns (sch : TicPandas.TableSchema)
    (rows : TicPandas.TableRows) (b : Bool) :
    (sch.pkFields.length = 1 →
      (TicPandas.copy_to_pandas sch rows b).index =
        rows.map fun r => TicPandas.PIndex.scalar (r.1.headD (.str ""))) ∧
    (2 ≤ sch.pkFields.length →
      (TicPandas.copy_to_pandas sch rows b).index =
        rows.map fun r => TicPandas.PIndex.multi r.1) ∧
    keys (TicPandas.copy_to_pandas sch rows true).columns = sch.dataFields ∧
    keys (TicPandas.copy_to_pandas sch rows false).columns =
      sch.pkFields ++ sch.dataFields := by
  have hidx : (TicPandas.copy_to_pandas sch rows b).index =
      rows.map fun r => TicPandas.mkIndex sch r.1 := by
    unfold TicPandas.copy_to_pandas
    cases b <;> simp
  refine ⟨?_, ?_, ?_, ?_⟩
  · intro h1
    rw [hidx]
    apply List.map_congr_left
    intro r _
    unfold TicPandas.mkIndex
    rw [if_pos h1]
  · intro h2
    rw [hidx]
    apply List.map_congr_left
    intro r _
    unfold TicPandas.mkIndex
    rw [if_neg (by omega)]
  · unfold TicPandas.copy_to_pandas
    simp only [if_pos rfl]
    exact keys_withIdx_map
      (fun i => rows.map fun r => (TicPandas.mkIndex sch r.1, r.2.getD i (.str ""))) _ _
  · unfold TicPandas.copy_to_pandas
    simp only [Bool.false_eq_true, if_false]
    show keys (_ ++ _) = _
    rw [keys_append,
      keys_withIdx_map
        (fun i => rows.map fun r => (TicPandas.mkIndex sch r.1, r.1.getD i (.str ""))),
      keys_withIdx_map
        (fun i => rows.map fun r => (TicPandas.mkIndex sch r.1, r.2.getD i (.str "")))]

/-- Witness for C8: the scalar index on the single-field table, the tuple
index on the two-field table, and both column sets. -/
theorem C8_witness :
    (TicPandas.copy_to_pandas TicPandas.schFoods TicPandas.rowsFoods true).index =
      TicPandas.rowsFoods.map (fun r => TicPandas.PIndex.scalar (r.1.headD (.str ""))) ∧
    (TicPandas.copy_to_pandas TicPandas.schNQ TicPandas.rowsNQ true).index =
      TicPandas.rowsNQ.map (fun r => TicPandas.PIndex.multi r.1) ∧
    keys (TicPandas.copy_to_pandas TicPandas.schFoods TicPandas.rowsFoods true).columns =
      TicPandas.schFoods.dataFields ∧
    keys (TicPandas.copy_to_pandas TicPandas.schFoods TicPandas.rowsFoods false).columns =
      TicPandas.schFoods.pkFields ++ TicPandas.schFoods.dataFields :=
  ⟨(C8_index_shape_and_pk_columns TicPandas.schFoods TicPandas.rowsFoods true).1 (by decide),
   (C8_index_shape_and_pk_columns TicPandas.schNQ TicPandas.rowsNQ true).2.1 (by decide),
   (C8_index_shape_and_pk_columns TicPandas.schFoods TicPandas.rowsFoods true).2.2.1,
   (C8_index_shape_and_pk_columns TicPandas.schFoods TicPandas.rowsFoods false).2.2.2⟩
